import Mathlib

/-!
Verification of the asynchronous transfer subsystem of a USB library
(files `src/async.rs` and `src/error.rs`).

The Rust code is shallowly embedded: byte buffers become lists of natural
numbers below 256 together with an abstract capacity and storage address,
machine-integer casts become explicit modular reductions, and the libusb
engine (an external collaborator) is modelled by explicit parameters — an
allocator behaviour for reallocation, engine return codes for `submit` and
`cancel`, and a schedule of completion events for the blocking
event-processing primitive.
-/

namespace LibusbRs

/-! ### libusb constants (from the C API, external collaborator) -/

/-- Transfer completion code: completed without error. -/
def LIBUSB_TRANSFER_COMPLETED : Int := 0

/-- Transfer completion code: failed with an I/O error. -/
def LIBUSB_TRANSFER_ERROR : Int := 1

/-- Transfer completion code: timed out. -/
def LIBUSB_TRANSFER_TIMED_OUT : Int := 2

/-- Transfer completion code: cancelled. -/
def LIBUSB_TRANSFER_CANCELLED : Int := 3

/-- Transfer completion code: endpoint stalled. -/
def LIBUSB_TRANSFER_STALL : Int := 4

/-- Transfer completion code: device disconnected. -/
def LIBUSB_TRANSFER_NO_DEVICE : Int := 5

/-- Transfer completion code: device sent more data than requested. -/
def LIBUSB_TRANSFER_OVERFLOW : Int := 6

/-- Transfer type code for control transfers. -/
def LIBUSB_TRANSFER_TYPE_CONTROL : Nat := 0

/-- Transfer type code for bulk transfers. -/
def LIBUSB_TRANSFER_TYPE_BULK : Nat := 2

/-- Transfer type code for interrupt transfers. -/
def LIBUSB_TRANSFER_TYPE_INTERRUPT : Nat := 3

/-! ### `src/error.rs` -/

/-- The error taxonomy of `src/error.rs` (`enum Error`). -/
inductive Error where
  | Success
  | Io
  | InvalidParam
  | Access
  | NoDevice
  | NotFound
  | Busy
  | Timeout
  | Overflow
  | Pipe
  | Interrupted
  | NoMem
  | NotSupported
  | Other
  deriving DecidableEq, Repr

/-- `from_libusb` of `src/error.rs`: maps a raw engine return code to an
`Error`.  The numeric codes are the `LIBUSB_ERROR_*` constants of the C
API, written inline. -/
def from_libusb (err : Int) : Error :=
  if err = 0 then Error.Success            -- LIBUSB_SUCCESS
  else if err = -1 then Error.Io           -- LIBUSB_ERROR_IO
  else if err = -2 then Error.InvalidParam -- LIBUSB_ERROR_INVALID_PARAM
  else if err = -3 then Error.Access       -- LIBUSB_ERROR_ACCESS
  else if err = -4 then Error.NoDevice     -- LIBUSB_ERROR_NO_DEVICE
  else if err = -5 then Error.NotFound     -- LIBUSB_ERROR_NOT_FOUND
  else if err = -6 then Error.Busy         -- LIBUSB_ERROR_BUSY
  else if err = -7 then Error.Timeout      -- LIBUSB_ERROR_TIMEOUT
  else if err = -8 then Error.Overflow     -- LIBUSB_ERROR_OVERFLOW
  else if err = -9 then Error.Pipe         -- LIBUSB_ERROR_PIPE
  else if err = -10 then Error.Interrupted -- LIBUSB_ERROR_INTERRUPTED
  else if err = -11 then Error.NoMem       -- LIBUSB_ERROR_NO_MEM
  else if err = -12 then Error.NotSupported -- LIBUSB_ERROR_NOT_SUPPORTED
  else Error.Other                         -- LIBUSB_ERROR_OTHER and catch-all

/-! ### The `Transfer` data model (`src/async.rs`) -/

/-- `TransferStatus` of `src/async.rs`: the status of a `Transfer`
returned by `wait_any`. -/
inductive TransferStatus where
  | Success
  | Error
  | Timeout
  | Cancelled
  | Stall
  | NoDevice
  | Overflow
  | Unknown
  deriving DecidableEq, Repr

/-- A Rust `Vec<u8>`: its element list, its heap capacity, and the address
of its heap storage (`as_mut_ptr`). -/
structure VecU8 where
  data : List Nat
  cap : Nat
  addr : Nat
  deriving DecidableEq, Repr

/-- Allocator behaviour, a parameter of the embedding: the address given
to the vector built by `collect` in `Transfer::control`, and whether (and
where to) `shrink_to_fit` relocates the storage when it shrinks. -/
structure AllocBehavior where
  collectAddr : Nat
  shrinkMoved : Bool
  shrinkAddr : Nat
  deriving DecidableEq, Repr

/-- `Vec::shrink_to_fit`: when capacity already equals length it does
nothing; otherwise it trims the capacity and the allocator may relocate
the storage to a new address. -/
def VecU8.shrink_to_fit (v : VecU8) (alloc : AllocBehavior) : VecU8 :=
  if v.cap = v.data.length then v
  else { v with cap := v.data.length,
                addr := if alloc.shrinkMoved then alloc.shrinkAddr else v.addr }

/-- `std::time::Duration`, as consumed by `Transfer::new`. -/
structure Duration where
  secs : Nat
  nanos : Nat
  deriving DecidableEq, Repr

/-- Cast of a `usize` value to `i32` (`buffer.len() as i32`). -/
def i32cast (n : Nat) : Int :=
  if n % 4294967296 < 2147483648 then ((n % 4294967296 : Nat) : Int)
  else ((n % 4294967296 : Nat) : Int) - 4294967296

/-- The `libusb_transfer` descriptor fields used by `src/async.rs`.  The
`buffer` field is the raw pointer stored by the code, modelled as the
address of the storage it was taken from. -/
structure LibusbTransfer where
  status : Int
  endpoint : Nat
  transfer_type : Nat
  timeout : Nat
  buffer : Nat
  length : Int
  actual_length : Int
  deriving DecidableEq, Repr

/-- `struct Transfer` of `src/async.rs`: an owned buffer plus the
descriptor handed to the engine (field `transfer`). -/
structure Transfer where
  buffer : VecU8
  transfer : LibusbTransfer
  deriving DecidableEq, Repr

/-- `Transfer::new`.  The `u8` argument `endpoint` is modelled as a `Nat`
reduced to the type range at entry.  Mirroring the source order exactly:
the descriptor fields — including the raw pointer `buffer.as_mut_ptr()`
and `buffer.len() as i32` — are written first, and only then is
`buffer.shrink_to_fit()` called. -/
def Transfer.new (endpoint : Nat) (transfer_type : Nat) (buffer : VecU8)
    (timeout : Duration) (alloc : AllocBehavior) : Transfer :=
  let endpoint := endpoint % 256
  let timeout_ms := timeout.secs * 1000 + timeout.nanos / 1000000
  let t : LibusbTransfer :=
    { status := -1
      endpoint := endpoint
      transfer_type := transfer_type % 256
      timeout := timeout_ms % 4294967296
      buffer := buffer.addr
      length := i32cast buffer.data.length
      actual_length := 0 }
  let buffer := buffer.shrink_to_fit alloc
  { buffer := buffer, transfer := t }

/-- `Transfer::bulk`. -/
def Transfer.bulk (endpoint : Nat) (buffer : VecU8) (timeout : Duration)
    (alloc : AllocBehavior) : Transfer :=
  Transfer.new endpoint LIBUSB_TRANSFER_TYPE_BULK buffer timeout alloc

/-- `Transfer::interrupt`. -/
def Transfer.interrupt (endpoint : Nat) (buffer : VecU8) (timeout : Duration)
    (alloc : AllocBehavior) : Transfer :=
  Transfer.new endpoint LIBUSB_TRANSFER_TYPE_INTERRUPT buffer timeout alloc

/-- `Transfer::control`.  The `u8` arguments (`request_type`, `request`)
and `u16` arguments (`value`, `index`) are modelled as `Nat` reduced to
the type range at entry; `buffer.len() as u16` is the reduction of the
length modulo 65536.  The combined vector produced by
`.iter().cloned().chain(buffer).collect()` is the 8-byte setup header
followed by the payload, at a fresh address with exact capacity. -/
def Transfer.control (endpoint : Nat) (buffer : VecU8)
    (request_type request value index : Nat) (timeout : Duration)
    (alloc : AllocBehavior) : Transfer :=
  let request_type := request_type % 256
  let request := request % 256
  let value := value % 65536
  let index := index % 65536
  let length := buffer.data.length % 65536
  let vec : VecU8 :=
    { data := [request_type, request,
               value % 256, value / 256,
               index % 256, index / 256,
               length % 256, length / 256] ++ buffer.data
      cap := 8 + buffer.data.length
      addr := alloc.collectAddr }
  Transfer.new endpoint LIBUSB_TRANSFER_TYPE_CONTROL vec timeout alloc

/-- `Transfer::endpoint`. -/
def Transfer.endpoint (t : Transfer) : Nat := t.transfer.endpoint

/-- `Transfer::status`: the match of `src/async.rs` on the raw descriptor
status, arm for arm — there is no arm for `LIBUSB_TRANSFER_OVERFLOW`. -/
def Transfer.status (t : Transfer) : TransferStatus :=
  if t.transfer.status = LIBUSB_TRANSFER_COMPLETED then TransferStatus.Success
  else if t.transfer.status = LIBUSB_TRANSFER_ERROR then TransferStatus.Error
  else if t.transfer.status = LIBUSB_TRANSFER_TIMED_OUT then TransferStatus.Timeout
  else if t.transfer.status = LIBUSB_TRANSFER_CANCELLED then TransferStatus.Cancelled
  else if t.transfer.status = LIBUSB_TRANSFER_STALL then TransferStatus.Stall
  else if t.transfer.status = LIBUSB_TRANSFER_NO_DEVICE then TransferStatus.NoDevice
  else TransferStatus.Unknown

/-- `Transfer::set_buffer`: writes the new buffer pointer and length into
the descriptor, resets `actual_length` to 0, and moves the new vector into
the struct (a Rust move does not change the heap storage address). -/
def Transfer.set_buffer (t : Transfer) (buffer : VecU8) : Transfer :=
  { buffer := buffer
    transfer := { t.transfer with
                    buffer := buffer.addr
                    length := i32cast buffer.data.length
                    actual_length := 0 } }

/-- The engine completing a transfer: while submitted, the engine is the
sole writer of the descriptor fields `status` and `actual_length`
(collaborator contract of the spec); this models that write. -/
def Transfer.completeWith (t : Transfer) (status actual_length : Int) : Transfer :=
  { t with transfer := { t.transfer with
                           status := status
                           actual_length := actual_length } }

/-- `Transfer::actual`: the slice
`from_raw_parts_mut(descriptor.buffer.offset(offset), actual_length)`
with `offset = 8` for control transfers and `0` otherwise, read from the
owned buffer under the aliasing invariant that the descriptor pointer is
the buffer storage address. -/
def Transfer.actual (t : Transfer) : List Nat :=
  let offset := if t.transfer.transfer_type = LIBUSB_TRANSFER_TYPE_CONTROL then 8 else 0
  (t.buffer.data.drop offset).take t.transfer.actual_length.toNat

/-! ### The `AsyncGroup` coordination model (`src/async.rs`)

At the group level a transfer descriptor (`*mut libusb_transfer`) is an
opaque identity, modelled as a natural number (the pointer value).  The
engine is modelled by explicit parameters: the return code of
`libusb_submit_transfer` and `libusb_cancel_transfer`, and a schedule for
`libusb_handle_events_completed` — each blocking call fires the
registered completion callback for a list of descriptors and then returns
an engine code. -/

/-- A `*mut libusb_transfer` descriptor identity. -/
abbrev DescId := Nat

/-- `struct CallbackData`: the lock-protected FIFO of completed
descriptors (front of the list = front of the `VecDeque`) plus the
completion flag. -/
structure CallbackData where
  completed : List DescId
  flag : Int
  deriving DecidableEq, Repr

/-- `struct AsyncGroup`: the callback data and the set of pending
descriptors (`HashSet`). -/
structure AsyncGroup where
  callback_data : CallbackData
  pending : Finset DescId
  deriving DecidableEq

/-- `async_group_callback`: pushes the completed descriptor at the back
of the queue and sets the completion flag. -/
def async_group_callback (cd : CallbackData) (transfer : DescId) : CallbackData :=
  { completed := cd.completed ++ [transfer], flag := 1 }

/-- `AsyncGroup::new`: empty queue, cleared flag, empty pending set. -/
def AsyncGroup.new : AsyncGroup :=
  { callback_data := { completed := [], flag := 0 }, pending := ∅ }

/-- What becomes of the Rust `Transfer` value passed to `submit`: dropped
at function exit on engine failure, or leaked to the engine via
`mem::forget` on success. -/
inductive TransferFate where
  | dropped
  | releasedToEngine
  deriving DecidableEq, Repr

/-- `AsyncGroup::submit`: registers the callback, asks the engine to
submit (`engineCode` is the return of `libusb_submit_transfer`); on a
nonzero code `try_unsafe!` returns the mapped error with the group
untouched and the `Transfer` value is dropped; on success the descriptor
is inserted into the pending set and the value is released by
`mem::forget`. -/
def AsyncGroup.submit (g : AsyncGroup) (t : DescId) (engineCode : Int) :
    AsyncGroup × Except Error Unit × TransferFate :=
  if engineCode = 0 then
    ({ g with pending := insert t g.pending }, Except.ok (), TransferFate.releasedToEngine)
  else
    (g, Except.error (from_libusb engineCode), TransferFate.dropped)

/-- One call of the engine blocking primitive
`libusb_handle_events_completed`: the completion callback fires for the
listed descriptors (in order), then the call returns the given code. -/
abbrev EngineCall := List DescId × Int

/-- The inner loop of `AsyncGroup::wait_any`: pop the front of the
completion queue if nonempty; otherwise clear the flag and run the next
blocking engine call, propagating a nonzero engine code as an error.
`none` means the loop would block with no further engine activity. -/
def waitLoop : CallbackData → List EngineCall →
    Option (CallbackData × List EngineCall × Except Error DescId)
  | cd, [] =>
    match cd.completed with
    | t :: rest => some ({ completed := rest, flag := cd.flag }, [], Except.ok t)
    | [] => none
  | cd, (comps, code) :: sched2 =>
    match cd.completed with
    | t :: rest =>
      some ({ completed := rest, flag := cd.flag }, (comps, code) :: sched2, Except.ok t)
    | [] =>
      let cd2 := comps.foldl async_group_callback { cd with flag := 0 }
      if code = 0 then waitLoop cd2 sched2
      else some (cd2, sched2, Except.error (from_libusb code))

/-- The outcome of `AsyncGroup::wait_any`. -/
inductive WaitResult where
  | ok (g : AsyncGroup) (t : DescId)
  | err (g : AsyncGroup) (e : Error)
  | panic (t : DescId)
  | blocked
  deriving DecidableEq

/-- `AsyncGroup::wait_any`: returns `NotFound` at once when the pending
set is empty; otherwise runs the dequeue loop, aborts if the dequeued
descriptor was not pending (`panic!`), and otherwise removes it from the
pending set and returns it (the completed `Transfer` is rebuilt around
it).  The unconsumed remainder of the engine schedule is returned
alongside. -/
def AsyncGroup.wait_any (g : AsyncGroup) (sched : List EngineCall) :
    WaitResult × List EngineCall :=
  if g.pending = ∅ then (WaitResult.err g Error.NotFound, sched)
  else
    match waitLoop g.callback_data sched with
    | none => (WaitResult.blocked, [])
    | some (cd, sched2, Except.error e) =>
      (WaitResult.err { g with callback_data := cd } e, sched2)
    | some (cd, sched2, Except.ok t) =>
      if t ∈ g.pending then
        (WaitResult.ok { callback_data := cd, pending := g.pending.erase t } t, sched2)
      else
        (WaitResult.panic t, sched2)

/-- Outcome of the `cancel_all` drain loop. -/
inductive DrainOutcome where
  | ok (g : AsyncGroup)
  | err (e : Error)
  | fatal (t : DescId)
  | blocked
  | outOfFuel
  deriving DecidableEq

/-- The `while self.pending.len() > 0 { try!(self.wait_any()) }` loop of
`cancel_all`, with explicit fuel (the source loop terminates because each
successful `wait_any` removes one pending descriptor). -/
def drainLoop : Nat → AsyncGroup → List EngineCall → DrainOutcome
  | 0, g, _ => if g.pending = ∅ then DrainOutcome.ok g else DrainOutcome.outOfFuel
  | fuel + 1, g, sched =>
    if g.pending = ∅ then DrainOutcome.ok g
    else
      match g.wait_any sched with
      | (WaitResult.ok g2 _, sched2) => drainLoop fuel g2 sched2
      | (WaitResult.err _ e, _) => DrainOutcome.err e
      | (WaitResult.panic t, _) => DrainOutcome.fatal t
      | (WaitResult.blocked, _) => DrainOutcome.blocked

/-- The first phase of `cancel_all`: `libusb_cancel_transfer` for each
pending descriptor in iteration order, stopping with the mapped error at
the first nonzero engine code (`try_unsafe!`). -/
def cancelPhase : List DescId → (DescId → Int) → Except Error Unit
  | [], _ => Except.ok ()
  | d :: rest, cancelCode =>
    if cancelCode d = 0 then cancelPhase rest cancelCode
    else Except.error (from_libusb (cancelCode d))

/-- `AsyncGroup::cancel_all`: cancel every pending descriptor (`order` is
the `HashSet` iteration order, `cancelCode` the engine return code per
descriptor), then drain with repeated `wait_any` until the pending set is
empty. -/
def AsyncGroup.cancel_all (g : AsyncGroup) (order : List DescId)
    (cancelCode : DescId → Int) (sched : List EngineCall) (fuel : Nat) :
    DrainOutcome :=
  match cancelPhase order cancelCode with
  | Except.error e => DrainOutcome.err e
  | Except.ok _ => drainLoop fuel g sched

/-- Repeatedly call `wait_any`, collecting the descriptors returned by
the successful calls in order, stopping at the first call that does not
return one. -/
def drainN : AsyncGroup → List EngineCall → Nat → List DescId
  | _, _, 0 => []
  | g, sched, n + 1 =>
    match g.wait_any sched with
    | (WaitResult.ok g2 t, sched2) => t :: drainN g2 sched2 n
    | _ => []

/-! ### Interleaved runs of one group

A run interleaves the three events that touch a group: a successful
`submit`, the engine firing the completion callback for one descriptor
(in reality this happens inside `libusb_handle_events_completed`; an
interleaving in which every callback precedes the `wait_any` that
consumes it is equivalent and lets each `wait_any` be called with an
empty remaining schedule), and a call of `wait_any`. -/

/-- An event in a run of one `AsyncGroup`. -/
inductive GEvent where
  | submit (d : DescId)
  | complete (d : DescId)
  | wait
  deriving DecidableEq, Repr

/-- The evolving state of a run: the group, the descriptors returned so
far by `wait_any` (in order), the ghost list of descriptors in the order
the engine completed them, and whether some `wait_any` failed to return a
descriptor (error, abort, or block). -/
structure RunState where
  g : AsyncGroup
  returned : List DescId
  completions : List DescId
  failed : Bool
  deriving DecidableEq

/-- The initial run state: a fresh group. -/
def initRunState : RunState :=
  { g := AsyncGroup.new, returned := [], completions := [], failed := false }

/-- One step of a run.  A failure is sticky: it marks the whole run. -/
def runStep (s : RunState) (e : GEvent) : RunState :=
  if s.failed then s
  else
    match e with
    | GEvent.submit d => { s with g := (s.g.submit d 0).1 }
    | GEvent.complete d =>
      { s with
          g := { s.g with callback_data := async_group_callback s.g.callback_data d }
          completions := s.completions ++ [d] }
    | GEvent.wait =>
      match s.g.wait_any [] with
      | (WaitResult.ok g2 t, _) => { s with g := g2, returned := s.returned ++ [t] }
      | _ => { s with failed := true }

/-- Run a whole event trace from the initial state. -/
def runEvents (es : List GEvent) : RunState := es.foldl runStep initRunState

/-- The descriptors a trace submits, in order. -/
def submitsOf : List GEvent → List DescId
  | [] => []
  | GEvent.submit d :: es => d :: submitsOf es
  | _ :: es => submitsOf es

/-- The descriptors a trace completes, in order. -/
def completionsOf : List GEvent → List DescId
  | [] => []
  | GEvent.complete d :: es => d :: completionsOf es
  | _ :: es => completionsOf es

/-! ### Helper lemmas about `Transfer` construction -/

theorem shrink_to_fit_data (v : VecU8) (alloc : AllocBehavior) :
    (v.shrink_to_fit alloc).data = v.data := by
  unfold VecU8.shrink_to_fit
  split <;> rfl

theorem new_buffer_data (e ty : Nat) (v : VecU8) (tm : Duration) (al : AllocBehavior) :
    (Transfer.new e ty v tm al).buffer.data = v.data := by
  simp [Transfer.new, shrink_to_fit_data]

theorem control_buffer_data (e : Nat) (buf : VecU8) (rt rq v i : Nat)
    (tm : Duration) (al : AllocBehavior) :
    (Transfer.control e buf rt rq v i tm al).buffer.data =
      [rt % 256, rq % 256, v % 65536 % 256, v % 65536 / 256,
       i % 65536 % 256, i % 65536 / 256,
       buf.data.length % 65536 % 256, buf.data.length % 65536 / 256] ++ buf.data := by
  simp [Transfer.control, new_buffer_data]

theorem control_transfer_type (e : Nat) (buf : VecU8) (rt rq v i : Nat)
    (tm : Duration) (al : AllocBehavior) :
    (Transfer.control e buf rt rq v i tm al).transfer.transfer_type =
      LIBUSB_TRANSFER_TYPE_CONTROL := rfl

theorem completeWith_buffer (t : Transfer) (st al : Int) :
    (t.completeWith st al).buffer = t.buffer := rfl

theorem completeWith_transfer_type (t : Transfer) (st al : Int) :
    (t.completeWith st al).transfer.transfer_type = t.transfer.transfer_type := rfl

theorem completeWith_actual_length (t : Transfer) (st al : Int) :
    (t.completeWith st al).transfer.actual_length = al := rfl

theorem bulk_transfer_type (e : Nat) (v : VecU8) (tm : Duration) (al : AllocBehavior) :
    (Transfer.bulk e v tm al).transfer.transfer_type = LIBUSB_TRANSFER_TYPE_BULK := rfl

theorem interrupt_transfer_type (e : Nat) (v : VecU8) (tm : Duration) (al : AllocBehavior) :
    (Transfer.interrupt e v tm al).transfer.transfer_type =
      LIBUSB_TRANSFER_TYPE_INTERRUPT := rfl

theorem bulk_buffer_data (e : Nat) (v : VecU8) (tm : Duration) (al : AllocBehavior) :
    (Transfer.bulk e v tm al).buffer.data = v.data := new_buffer_data _ _ _ _ _

theorem interrupt_buffer_data (e : Nat) (v : VecU8) (tm : Duration) (al : AllocBehavior) :
    (Transfer.interrupt e v tm al).buffer.data = v.data := new_buffer_data _ _ _ _ _

theorem actual_of_control_shape (t : Transfer)
    (hty : t.transfer.transfer_type = LIBUSB_TRANSFER_TYPE_CONTROL) :
    t.actual = (t.buffer.data.drop 8).take t.transfer.actual_length.toNat := by
  simp [Transfer.actual, hty]

theorem actual_of_noncontrol_shape (t : Transfer)
    (hty : t.transfer.transfer_type ≠ LIBUSB_TRANSFER_TYPE_CONTROL) :
    t.actual = t.buffer.data.take t.transfer.actual_length.toNat := by
  simp [Transfer.actual, hty]

/-! ### Claims about `Transfer` -/

/-- Claim C1: a control transfer built from a payload of length `L`
carries a buffer whose first 8 bytes are exactly
`[request_type, request, value low, value high, index low, index high,
L low, L high]` followed immediately by the payload, and on the completed
transfer `actual()` is the slice of the buffer starting at offset 8 of
length `actual_length` (never containing the setup header), while for
bulk and interrupt transfers `actual()` starts at offset 0. -/
theorem c1_control_setup_and_actual
    (endpoint request_type request value index : Nat) (payload : VecU8)
    (tm : Duration) (alloc : AllocBehavior) (st : Int) (a : Nat)
    (hrt : request_type < 256) (hrq : request < 256)
    (hv : value < 65536) (hi : index < 65536)
    (ha : a ≤ payload.data.length) :
    (let t := Transfer.control endpoint payload request_type request value index tm alloc
     let tc := t.completeWith st (a : Int)
     t.buffer.data.take 8 =
        [request_type, request, value % 256, value / 256, index % 256, index / 256,
         payload.data.length % 256, payload.data.length / 256 % 256]
      ∧ t.buffer.data.drop 8 = payload.data
      ∧ tc.actual = (tc.buffer.data.drop 8).take tc.transfer.actual_length.toNat
      ∧ tc.actual.length = a)
    ∧ ∀ (buf : VecU8) (b : Nat), b ≤ buf.data.length →
        ((Transfer.bulk endpoint buf tm alloc).completeWith st (b : Int)).actual
            = buf.data.take b
      ∧ ((Transfer.interrupt endpoint buf tm alloc).completeWith st (b : Int)).actual
            = buf.data.take b := by
  have h65536 : (65536 : Nat) = 256 * 256 := by norm_num
  have hLlow : payload.data.length % 65536 % 256 = payload.data.length % 256 :=
    Nat.mod_mod_of_dvd _ (by norm_num)
  have hLhigh : payload.data.length % 65536 / 256 = payload.data.length / 256 % 256 := by
    rw [h65536, Nat.mod_mul_right_div_self]
  refine ⟨⟨?_, ?_, ?_, ?_⟩, ?_⟩
  · rw [control_buffer_data]
    simp [hLlow, hLhigh, Nat.mod_eq_of_lt hrt, Nat.mod_eq_of_lt hrq,
        Nat.mod_eq_of_lt hv, Nat.mod_eq_of_lt hi]
  · rw [control_buffer_data]
    simp
  · simp [Transfer.actual, completeWith_transfer_type, control_transfer_type]
  · simp [Transfer.actual, completeWith_transfer_type, control_transfer_type,
      completeWith_buffer, control_buffer_data, completeWith_actual_length,
      List.length_take, Nat.min_eq_left ha]
  · intro buf b hb
    constructor
    · simp [Transfer.actual, completeWith_transfer_type, bulk_transfer_type,
        completeWith_buffer, bulk_buffer_data, completeWith_actual_length,
        LIBUSB_TRANSFER_TYPE_BULK, LIBUSB_TRANSFER_TYPE_CONTROL]
    · simp [Transfer.actual, completeWith_transfer_type, interrupt_transfer_type,
        completeWith_buffer, interrupt_buffer_data, completeWith_actual_length,
        LIBUSB_TRANSFER_TYPE_INTERRUPT, LIBUSB_TRANSFER_TYPE_CONTROL]

/-- Witness for C1 at a concrete input: the descriptor-request scenario of
the spec (request_type 0x80, request 0x06, value 0x0100, index 0,
payload of 18 zero bytes) has setup header
`[0x80, 0x06, 0x00, 0x01, 0x00, 0x00, 0x12, 0x00]`. -/
theorem c1_control_setup_and_actual_witness :
    (let t := Transfer.control 0 { data := List.replicate 18 0, cap := 18, addr := 40 }
        128 6 256 0 { secs := 1, nanos := 0 }
        { collectAddr := 50, shrinkMoved := false, shrinkAddr := 0 }
     let tc := t.completeWith 0 (4 : Int)
     t.buffer.data.take 8 = [128, 6, 0, 1, 0, 0, 18, 0]
      ∧ t.buffer.data.drop 8 = List.replicate 18 0
      ∧ tc.actual = (tc.buffer.data.drop 8).take tc.transfer.actual_length.toNat
      ∧ tc.actual.length = 4)
    ∧ ((Transfer.bulk 0 { data := [9, 9, 9], cap := 3, addr := 60 }
          { secs := 1, nanos := 0 }
          { collectAddr := 50, shrinkMoved := false, shrinkAddr := 0 }).completeWith
          0 ((2 : Nat) : Int)).actual = ([9, 9, 9] : List Nat).take 2
    ∧ ((Transfer.interrupt 0 { data := [9, 9, 9], cap := 3, addr := 60 }
          { secs := 1, nanos := 0 }
          { collectAddr := 50, shrinkMoved := false, shrinkAddr := 0 }).completeWith
          0 ((2 : Nat) : Int)).actual = ([9, 9, 9] : List Nat).take 2 := by
  have h := c1_control_setup_and_actual 0 128 6 256 0
    { data := List.replicate 18 0, cap := 18, addr := 40 }
    { secs := 1, nanos := 0 } { collectAddr := 50, shrinkMoved := false, shrinkAddr := 0 }
    0 4 (by norm_num) (by norm_num) (by norm_num) (by norm_num) (by simp)
  have hb := h.2 { data := [9, 9, 9], cap := 3, addr := 60 } 2 (by norm_num)
  exact ⟨by simpa using h.1, hb.1, hb.2⟩

/-- Claim C2 (code bug): `Transfer::status` has no match arm for
`LIBUSB_TRANSFER_OVERFLOW`, so a transfer the engine completed with the
overflow code is reported as `Unknown`, not as the `Overflow` variant the
`TransferStatus` enum itself declares for that code. -/
theorem c2_overflow_completion_reported_unknown :
    ((Transfer.bulk 129 { data := [0, 0, 0, 0], cap := 4, addr := 1000 }
        { secs := 1, nanos := 0 }
        { collectAddr := 0, shrinkMoved := false, shrinkAddr := 0 }).completeWith
        LIBUSB_TRANSFER_OVERFLOW 4).status = TransferStatus.Unknown
    ∧ TransferStatus.Overflow ≠ TransferStatus.Unknown := by
  constructor
  · rfl
  · decide

/-- Claim C3 (code bug): `Transfer::new` stores `buffer.as_mut_ptr()` and
`buffer.len()` into the descriptor and only then calls
`buffer.shrink_to_fit()`.  Evaluated at a buffer of length 4 and
capacity 16 with an allocator that relocates the storage when shrinking:
the descriptor keeps the stale address 100 while the owned buffer now
lives at 200, so the descriptor pointer does not equal the buffer storage
address of the freshly constructed transfer. -/
theorem c3_pointer_handed_before_shrink :
    (let t := Transfer.bulk 129 { data := [0, 0, 0, 0], cap := 16, addr := 100 }
        { secs := 1, nanos := 0 }
        { collectAddr := 0, shrinkMoved := true, shrinkAddr := 200 }
     t.transfer.buffer = 100 ∧ t.buffer.addr = 200 ∧ t.buffer.cap = 4
      ∧ t.transfer.buffer ≠ t.buffer.addr
      ∧ t.transfer.length = 4) := by
  decide

/-- Claim C10: the two length bytes of the setup header encode the
payload length reduced modulo 2^16 (the length is cast to `u16`): the
decoded 16-bit header length equals `L % 65536`, which equals the true
payload length exactly when the payload is shorter than 65536 bytes,
while the full payload is appended after the header in every case. -/
theorem c10_header_length_mod_65536
    (endpoint request_type request value index : Nat) (payload : VecU8)
    (tm : Duration) (alloc : AllocBehavior) :
    let t := Transfer.control endpoint payload request_type request value index tm alloc
    let L := payload.data.length
    ((t.buffer.data.drop 6).take 2 = [L % 65536 % 256, L % 65536 / 256])
    ∧ t.buffer.data.getD 6 0 + 256 * t.buffer.data.getD 7 0 = L % 65536
    ∧ (L % 65536 = L ↔ L < 65536)
    ∧ t.buffer.data.drop 8 = payload.data := by
  intro t L
  have hdata := control_buffer_data endpoint payload request_type request value index tm alloc
  refine ⟨?_, ?_, ?_, ?_⟩
  · rw [show t = Transfer.control endpoint payload request_type request value index tm alloc
        from rfl, hdata]
    rfl
  · rw [show t = Transfer.control endpoint payload request_type request value index tm alloc
        from rfl, hdata]
    show L % 65536 % 256 + 256 * (L % 65536 / 256) = L % 65536
    exact Nat.mod_add_div _ _
  · constructor
    · intro h
      rw [← h]
      exact Nat.mod_lt _ (by norm_num)
    · exact Nat.mod_eq_of_lt
  · rw [show t = Transfer.control endpoint payload request_type request value index tm alloc
        from rfl, hdata]
    exact List.drop_left' (by rfl)

/-! ### Helper lemmas about the group coordination model -/

theorem foldl_callback_completed (ds : List DescId) (cd : CallbackData) :
    (ds.foldl async_group_callback cd).completed = cd.completed ++ ds := by
  induction ds generalizing cd with
  | nil => simp
  | cons d rest ih => simp [async_group_callback, ih]

theorem waitLoop_cons (cd : CallbackData) (sched : List EngineCall) (t : DescId)
    (rest : List DescId) (hq : cd.completed = t :: rest) :
    waitLoop cd sched =
      some ({ completed := rest, flag := cd.flag }, sched, Except.ok t) := by
  cases sched with
  | nil => simp [waitLoop, hq]
  | cons p sched2 =>
    cases p with
    | mk comps code => simp [waitLoop, hq]

theorem wait_any_pop_mem (g : AsyncGroup) (t : DescId) (rest : List DescId)
    (sched : List EngineCall) (hq : g.callback_data.completed = t :: rest)
    (hmem : t ∈ g.pending) :
    g.wait_any sched =
      (WaitResult.ok { callback_data := { completed := rest, flag := g.callback_data.flag },
                       pending := g.pending.erase t } t, sched) := by
  simp [AsyncGroup.wait_any, Finset.ne_empty_of_mem hmem,
    waitLoop_cons _ sched t rest hq, hmem]

theorem wait_any_pop_not_mem (g : AsyncGroup) (t : DescId) (rest : List DescId)
    (sched : List EngineCall) (hq : g.callback_data.completed = t :: rest)
    (hne : g.pending ≠ ∅) (hnm : t ∉ g.pending) :
    g.wait_any sched = (WaitResult.panic t, sched) := by
  simp [AsyncGroup.wait_any, hne, waitLoop_cons _ sched t rest hq, hnm]

theorem drainN_fifo (ds : List DescId) : ∀ (g : AsyncGroup) (sched : List EngineCall),
    g.callback_data.completed = ds → ds.Nodup → (∀ d ∈ ds, d ∈ g.pending) →
    drainN g sched ds.length = ds := by
  induction ds with
  | nil => intro g sched _ _ _; rfl
  | cons d rest ih =>
    intro g sched hq hnd hp
    have hmem : d ∈ g.pending := hp d (by simp)
    have hdnotin : d ∉ rest := (List.nodup_cons.mp hnd).1
    rw [show (d :: rest).length = rest.length + 1 from rfl, drainN,
        wait_any_pop_mem g d rest sched hq hmem]
    have hrec := ih { callback_data := { completed := rest, flag := g.callback_data.flag },
                      pending := g.pending.erase d } sched rfl
        (List.nodup_cons.mp hnd).2
        (by
          intro x hx
          exact Finset.mem_erase.mpr ⟨fun hxd => hdnotin (hxd ▸ hx), hp x (by simp [hx])⟩)
    simp [hrec]

/-! ### Claims about `AsyncGroup` -/

/-- Claim C4: on a group whose pending set is empty, `wait_any` returns
the `NotFound` error at once — the group state is untouched and no call
of the engine blocking primitive is consumed. -/
theorem c4_wait_any_empty_notfound (g : AsyncGroup) (sched : List EngineCall)
    (h : g.pending = ∅) :
    g.wait_any sched = (WaitResult.err g Error.NotFound, sched) := by
  simp [AsyncGroup.wait_any, h]

/-- Witness for C4: a fresh group has an empty pending set and its
`wait_any` fails with `NotFound` without consuming the schedule. -/
theorem c4_wait_any_empty_notfound_witness :
    AsyncGroup.new.pending = ∅
    ∧ AsyncGroup.new.wait_any [([3], 0)] =
        (WaitResult.err AsyncGroup.new Error.NotFound, [([3], 0)]) :=
  ⟨rfl, c4_wait_any_empty_notfound AsyncGroup.new [([3], 0)] rfl⟩

/-- Claim C5: completions are returned in FIFO order.  If the completion
callback enqueued the (distinct, pending) descriptors `ds` in that order,
then successive successful `wait_any` calls return exactly `ds` in the
same order: the descriptor enqueued first is returned first, whatever the
submission order was (`g.pending` is any set containing them). -/
theorem c5_fifo_completion_order (ds : List DescId) (g : AsyncGroup)
    (sched : List EngineCall)
    (hq : g.callback_data =
        List.foldl async_group_callback { completed := [], flag := 0 } ds)
    (hnd : ds.Nodup) (hp : ∀ d ∈ ds, d ∈ g.pending) :
    drainN g sched ds.length = ds :=
  drainN_fifo ds g sched (by rw [hq, foldl_callback_completed]; rfl) hnd hp

/-- Witness for C5: descriptors 5 then 3 enqueued by the callback are
returned in that order by two `wait_any` calls. -/
theorem c5_fifo_completion_order_witness :
    drainN { callback_data := { completed := [5, 3], flag := 1 },
             pending := ({5, 3} : Finset DescId) } [] 2 = [5, 3] :=
  c5_fifo_completion_order [5, 3]
    { callback_data := { completed := [5, 3], flag := 1 }, pending := ({5, 3} : Finset DescId) }
    [] rfl (by decide) (by decide)

theorem wait_any_nil_ok (g g2 : AsyncGroup) (t : DescId) (sched2 : List EngineCall)
    (h : g.wait_any [] = (WaitResult.ok g2 t, sched2)) :
    g.callback_data.completed = t :: g2.callback_data.completed
    ∧ t ∈ g.pending ∧ g2.pending = g.pending.erase t := by
  by_cases hp : g.pending = ∅
  · simp [AsyncGroup.wait_any, hp] at h
  · rcases hc : g.callback_data.completed with _ | ⟨u, rest⟩
    · have : waitLoop g.callback_data [] = none := by simp [waitLoop, hc]
      simp [AsyncGroup.wait_any, hp, this] at h
    · by_cases hm : u ∈ g.pending
      · rw [wait_any_pop_mem g u rest [] hc hm] at h
        simp only [Prod.mk.injEq, WaitResult.ok.injEq] at h
        obtain ⟨⟨hg2, hut⟩, _⟩ := h
        subst hut
        rw [← hg2]
        exact ⟨rfl, hm, rfl⟩
      · rw [wait_any_pop_not_mem g u rest [] hc hp hm] at h
        simp at h

theorem runStep_queue_inv (s : RunState) (e : GEvent)
    (h : s.returned ++ s.g.callback_data.completed = s.completions) :
    (runStep s e).returned ++ (runStep s e).g.callback_data.completed =
      (runStep s e).completions := by
  by_cases hf : s.failed
  · simp [runStep, hf, h]
  · cases e with
    | submit d => simp [runStep, hf, AsyncGroup.submit, h]
    | complete d =>
      simp [runStep, hf, async_group_callback, ← List.append_assoc, h]
    | wait =>
      rcases hw : s.g.wait_any [] with ⟨res, sch⟩
      cases res with
      | ok g2 t =>
        obtain ⟨hc, _, _⟩ := wait_any_nil_ok s.g g2 t sch hw
        simp only [runStep, hf, Bool.false_eq_true, if_false, hw]
        rw [← h, hc, List.append_assoc]
        rfl
      | err g2 e2 => simp [runStep, hf, hw, h]
      | panic t => simp [runStep, hf, hw, h]
      | blocked => simp [runStep, hf, hw, h]

theorem foldl_runStep_queue_inv (es : List GEvent) :
    ∀ s : RunState, s.returned ++ s.g.callback_data.completed = s.completions →
    (es.foldl runStep s).returned ++ (es.foldl runStep s).g.callback_data.completed =
      (es.foldl runStep s).completions := by
  induction es with
  | nil => intro s h; exact h
  | cons e rest ih => intro s h; exact ih _ (runStep_queue_inv s e h)

theorem runStep_failed_sticky (s : RunState) (e : GEvent) (h : s.failed = true) :
    runStep s e = s := by
  simp [runStep, h]

theorem foldl_runStep_not_failed (es : List GEvent) :
    ∀ s : RunState, (es.foldl runStep s).failed = false → s.failed = false := by
  induction es with
  | nil => intro s h; exact h
  | cons e rest ih =>
    intro s h
    have h2 : (runStep s e).failed = false := ih (runStep s e) h
    by_cases hf : s.failed = true
    · rw [runStep_failed_sticky s e hf] at h2
      rw [h2] at hf
      cases hf
    · simpa using hf

theorem foldl_runStep_completions (es : List GEvent) :
    ∀ s : RunState, (es.foldl runStep s).failed = false →
    (es.foldl runStep s).completions = s.completions ++ completionsOf es := by
  induction es with
  | nil => intro s _; simp [completionsOf]
  | cons e rest ih =>
    intro s h
    have hfold : (e :: rest).foldl runStep s = rest.foldl runStep (runStep s e) := rfl
    rw [hfold] at h ⊢
    have hs : s.failed = false :=
      foldl_runStep_not_failed (e :: rest) s (by rw [hfold]; exact h)
    have hstep : (runStep s e).failed = false := foldl_runStep_not_failed rest _ h
    rw [ih (runStep s e) h]
    cases e with
    | submit d => simp [runStep, hs, AsyncGroup.submit, completionsOf]
    | complete d => simp [runStep, hs, completionsOf]
    | wait =>
      rcases hw : s.g.wait_any [] with ⟨res, sch⟩
      cases res with
      | ok g2 t => simp [runStep, hs, hw, completionsOf]
      | err g2 e2 => rw [runStep, if_neg (by simp [hs])] at hstep; simp [hw] at hstep
      | panic t => rw [runStep, if_neg (by simp [hs])] at hstep; simp [hw] at hstep
      | blocked => rw [runStep, if_neg (by simp [hs])] at hstep; simp [hw] at hstep

/-- Claim C6: in any interleaved run of a fresh group in which each
submitted descriptor is completed by the engine exactly once (the
completion order is a permutation of the submission list) and every
`wait_any` call succeeds, once the completion queue is drained the list
of descriptors returned by `wait_any` is a permutation of the submitted
list — every submitted descriptor is returned exactly once, with no
duplicates and no omissions, regardless of completion order. -/
theorem c6_each_descriptor_returned_exactly_once (es : List GEvent)
    (hfail : (runEvents es).failed = false)
    (hdrained : (runEvents es).g.callback_data.completed = [])
    (hperm : (completionsOf es).Perm (submitsOf es)) :
    (runEvents es).returned.Perm (submitsOf es)
    ∧ ∀ d : DescId, (runEvents es).returned.count d = (submitsOf es).count d := by
  have hinv := foldl_runStep_queue_inv es initRunState rfl
  have hinv2 : (runEvents es).returned ++ (runEvents es).g.callback_data.completed =
      (runEvents es).completions := hinv
  rw [hdrained, List.append_nil] at hinv2
  have hcomp : (runEvents es).completions = completionsOf es := by
    have := foldl_runStep_completions es initRunState hfail
    simpa [runEvents, initRunState] using this
  have hret : (runEvents es).returned = completionsOf es := by rw [hinv2, hcomp]
  refine ⟨?_, ?_⟩
  · rw [hret]; exact hperm
  · intro d; rw [hret]; exact hperm.count_eq d

/-- Witness for C6: the trace submit 1, submit 2, complete 2, complete 1,
wait, wait returns the descriptors 2 then 1 — each exactly once even
though the engine completed them in the reverse of the submission
order. -/
theorem c6_each_descriptor_returned_exactly_once_witness :
    (runEvents [GEvent.submit 1, GEvent.submit 2, GEvent.complete 2,
        GEvent.complete 1, GEvent.wait, GEvent.wait]).returned.Perm
      (submitsOf [GEvent.submit 1, GEvent.submit 2, GEvent.complete 2,
        GEvent.complete 1, GEvent.wait, GEvent.wait])
    ∧ (runEvents [GEvent.submit 1, GEvent.submit 2, GEvent.complete 2,
        GEvent.complete 1, GEvent.wait, GEvent.wait]).returned.count 1 = 1 :=
  have h := c6_each_descriptor_returned_exactly_once
    [GEvent.submit 1, GEvent.submit 2, GEvent.complete 2,
     GEvent.complete 1, GEvent.wait, GEvent.wait]
    (by decide) (by decide) (by decide)
  ⟨h.1, by rw [h.2 1]; decide⟩

/-- Claim C7: `submit` is atomic with respect to the group state.  A
nonzero engine code makes it return the mapped error with the pending set
(and the whole group) unchanged and the `Transfer` value dropped rather
than tracked; a zero code makes it return `Ok` with the descriptor
inserted into the pending set and the `Transfer` released to the engine
by `mem::forget`. -/
theorem c7_submit_atomic (g : AsyncGroup) (t : DescId) (engineCode : Int) :
    (engineCode ≠ 0 →
      g.submit t engineCode =
        (g, Except.error (from_libusb engineCode), TransferFate.dropped))
    ∧ (engineCode = 0 →
      g.submit t engineCode =
        ({ g with pending := insert t g.pending }, Except.ok (),
         TransferFate.releasedToEngine)) := by
  constructor
  · intro h; simp [AsyncGroup.submit, h]
  · intro h; simp [AsyncGroup.submit, h]

/-- Witness for C7: a failing submission (engine code -1, an I/O error)
leaves a fresh group untouched and drops the transfer; a succeeding one
records descriptor 4 as pending and releases the transfer. -/
theorem c7_submit_atomic_witness :
    AsyncGroup.new.submit 4 (-1) =
      (AsyncGroup.new, Except.error Error.Io, TransferFate.dropped)
    ∧ AsyncGroup.new.submit 4 0 =
      ({ AsyncGroup.new with pending := insert 4 AsyncGroup.new.pending },
       Except.ok (), TransferFate.releasedToEngine) := by
  constructor
  · rw [(c7_submit_atomic AsyncGroup.new 4 (-1)).1 (by decide)]
    rfl
  · exact (c7_submit_atomic AsyncGroup.new 4 0).2 rfl

theorem cancelPhase_ok (order : List DescId) (cancelCode : DescId → Int)
    (h : cancelPhase order cancelCode = Except.ok ()) :
    ∀ d ∈ order, cancelCode d = 0 := by
  induction order with
  | nil => intro d hd; cases hd
  | cons a rest ih =>
    intro d hd
    by_cases ha : cancelCode a = 0
    · rw [cancelPhase, if_pos ha] at h
      rcases List.mem_cons.mp hd with h1 | h2
      · rw [h1]; exact ha
      · exact ih h d h2
    · rw [cancelPhase, if_neg ha] at h
      cases h

theorem drainLoop_ok_pending_empty (fuel : Nat) :
    ∀ (g : AsyncGroup) (sched : List EngineCall) (g2 : AsyncGroup),
      drainLoop fuel g sched = DrainOutcome.ok g2 → g2.pending = ∅ := by
  induction fuel with
  | zero =>
    intro g sched g2 h
    by_cases hp : g.pending = ∅
    · simp [drainLoop, hp] at h
      rw [← h]; exact hp
    · simp [drainLoop, hp] at h
  | succ n ih =>
    intro g sched g2 h
    by_cases hp : g.pending = ∅
    · simp [drainLoop, hp] at h
      rw [← h]; exact hp
    · rw [drainLoop, if_neg hp] at h
      rcases hw : g.wait_any sched with ⟨res, sch⟩
      rw [hw] at h
      cases res with
      | ok g3 t => exact ih g3 sch g2 h
      | err g3 e2 => simp at h
      | panic t => simp at h
      | blocked => simp at h

/-- Claim C8: when `cancel_all` returns `Ok`, a cancellation request was
issued (successfully) for every descriptor that was pending when it was
called, and — because the `Ok` exit of the `wait_any` drain loop requires
it — the pending set is empty afterwards. -/
theorem c8_cancel_all_cancels_and_drains (g : AsyncGroup) (order : List DescId)
    (cancelCode : DescId → Int) (sched : List EngineCall) (fuel : Nat)
    (g2 : AsyncGroup)
    (horder : order.toFinset = g.pending)
    (hok : g.cancel_all order cancelCode sched fuel = DrainOutcome.ok g2) :
    (∀ d ∈ g.pending, cancelCode d = 0) ∧ g2.pending = ∅ := by
  unfold AsyncGroup.cancel_all at hok
  rcases hcp : cancelPhase order cancelCode with e | u
  · rw [hcp] at hok; simp at hok
  · cases u
    rw [hcp] at hok
    refine ⟨?_, drainLoop_ok_pending_empty fuel g sched g2 hok⟩
    intro d hd
    have hmem : d ∈ order := by
      rw [← horder] at hd
      simpa [List.mem_toFinset] using hd
    exact cancelPhase_ok order cancelCode hcp d hmem

/-- Witness for C8: a group with pending descriptor 7 and a completion
for 7 already queued; cancellation succeeds for every descriptor, and
`cancel_all` returns `Ok` with an empty pending set. -/
theorem c8_cancel_all_cancels_and_drains_witness :
    ((fun _ : DescId => (0 : Int)) 7 = 0
      ∧ ({ callback_data := { completed := [], flag := 1 },
           pending := ∅ } : AsyncGroup).pending = ∅) :=
  have h := c8_cancel_all_cancels_and_drains
    { callback_data := { completed := [7], flag := 1 }, pending := ({7} : Finset DescId) }
    [7] (fun _ => 0) [] 1
    { callback_data := { completed := [], flag := 1 }, pending := ∅ }
    (by decide) (by decide)
  ⟨h.1 7 (by decide), h.2⟩

theorem waitLoop_ok_source (sched : List EngineCall) :
    ∀ (cd cd2 : CallbackData) (sched2 : List EngineCall) (t : DescId),
      waitLoop cd sched = some (cd2, sched2, Except.ok t) →
      t ∈ cd.completed ∨ ∃ p ∈ sched, t ∈ p.1 := by
  induction sched with
  | nil =>
    intro cd cd2 sched2 t h
    rcases hc : cd.completed with _ | ⟨u, rest⟩
    · simp [waitLoop, hc] at h
    · simp [waitLoop, hc] at h
      left
      rw [← h.2.2]
      exact List.mem_cons_self _ _
  | cons p sched' ih =>
    intro cd cd2 sched2 t h
    rcases p with ⟨comps, code⟩
    rcases hc : cd.completed with _ | ⟨u, rest⟩
    · by_cases hcode : code = 0
      · rw [waitLoop, hc] at h
        rw [if_pos hcode] at h
        rcases ih _ _ _ _ h with hin | ⟨q, hq, hqt⟩
        · right
          refine ⟨(comps, code), List.mem_cons_self _ _, ?_⟩
          have hfold : (comps.foldl async_group_callback
              { completed := ([] : List DescId), flag := 0 }).completed = comps := by
            rw [foldl_callback_completed]
            rfl
          simpa [hfold] using hin
        · right; exact ⟨q, List.mem_cons_of_mem _ hq, hqt⟩
      · rw [waitLoop, hc] at h
        rw [if_neg hcode] at h
        simp at h
    · rw [waitLoop, hc] at h
      simp only [Option.some.injEq, Prod.mk.injEq, Except.ok.injEq] at h
      left
      rw [← h.2.2]
      exact List.mem_cons_self _ _

theorem wait_any_never_panics_under_invariant (g : AsyncGroup)
    (sched : List EngineCall)
    (hq : ∀ d ∈ g.callback_data.completed, d ∈ g.pending)
    (hs : ∀ p ∈ sched, ∀ d ∈ p.1, d ∈ g.pending) :
    ∀ t, (g.wait_any sched).1 ≠ WaitResult.panic t := by
  intro t ht
  unfold AsyncGroup.wait_any at ht
  by_cases hp : g.pending = ∅
  · simp [hp] at ht
  · rw [if_neg hp] at ht
    rcases hw : waitLoop g.callback_data sched with _ | ⟨cd, sched2, r⟩
    · rw [hw] at ht; simp at ht
    · rw [hw] at ht
      cases r with
      | error e2 => simp at ht
      | ok u =>
        by_cases hm : u ∈ g.pending
        · simp [hm] at ht
        · rcases waitLoop_ok_source sched _ _ _ _ hw with hin | ⟨q, hq2, hqt⟩
          · exact hm (hq u hin)
          · exact hm (hs q hq2 u hqt)

/-- Claim C9: if `wait_any` dequeues a completed descriptor that is not
in the pending set, it aborts (the `panic!` branch) instead of returning;
and under the invariant that everything the callback can enqueue — the
current queue contents and every descriptor completed by the scheduled
engine calls — is pending, the abort branch is unreachable. -/
theorem c9_nonpending_completion_aborts :
    (∀ (g : AsyncGroup) (t : DescId) (rest : List DescId) (sched : List EngineCall),
        g.callback_data.completed = t :: rest → g.pending ≠ ∅ → t ∉ g.pending →
        (g.wait_any sched).1 = WaitResult.panic t)
    ∧ (∀ (g : AsyncGroup) (sched : List EngineCall),
        (∀ d ∈ g.callback_data.completed, d ∈ g.pending) →
        (∀ p ∈ sched, ∀ d ∈ p.1, d ∈ g.pending) →
        ∀ t, (g.wait_any sched).1 ≠ WaitResult.panic t) := by
  constructor
  · intro g t rest sched hqc hne hnm
    rw [wait_any_pop_not_mem g t rest sched hqc hne hnm]
  · exact wait_any_never_panics_under_invariant

/-- Witness for C9: a group pending only descriptor 1 but with a queued
completion for descriptor 2 aborts; a group whose queued completion 1 is
pending does not reach the abort branch. -/
theorem c9_nonpending_completion_aborts_witness :
    (({ callback_data := { completed := [2], flag := 1 },
          pending := ({1} : Finset DescId) } : AsyncGroup).wait_any []).1
        = WaitResult.panic 2
    ∧ (({ callback_data := { completed := [1], flag := 1 },
            pending := ({1} : Finset DescId) } : AsyncGroup).wait_any []).1
        ≠ WaitResult.panic 5 :=
  ⟨c9_nonpending_completion_aborts.1
      { callback_data := { completed := [2], flag := 1 }, pending := ({1} : Finset DescId) }
      2 [] [] rfl (by decide) (by decide),
   c9_nonpending_completion_aborts.2
      { callback_data := { completed := [1], flag := 1 }, pending := ({1} : Finset DescId) }
      [] (by decide) (by decide) 5⟩

end LibusbRs
